import Mathlib

/-!
Shallow embedding of the WXML external scanner (src/src/scanner.c).

The scanner is stateless; each scan call reads the remaining input through
the tree-sitter lexer interface.  We model the remaining input as a
`List Char`; end of input is the empty list, and — as in tree-sitter, where
`lexer->lookahead` is `0` at end of input — the lookahead of an empty list
is the NUL character.  `advance` is `List.tail` together with a count of
consumed characters.  `mark_end` freezes the token end at the current
position: once some mark has been recorded, the reported token end is the
last marked position, otherwise it is the final cursor position (this is
exactly `ts_lexer_finish` in tree-sitter's lexer).

A scan result is `none` (no match) or `some (kind, n)` where `n` is the
length of the reported token span, counted from the first significant
character (whitespace skipped with `skip = true` is trivia and excluded).
-/

namespace WxmlScanner

/-- NUL, the end-of-input sentinel value of `lexer->lookahead`. -/
def NUL : Char := '\x00'

/-- Current lookahead character of the remaining input (NUL at end of input). -/
def lookaheadOf (l : List Char) : Char := l.headD NUL

/-- C-locale `iswalpha`: ASCII letters. -/
def iswalpha (c : Char) : Bool :=
  decide ((65 ≤ c.toNat ∧ c.toNat ≤ 90) ∨ (97 ≤ c.toNat ∧ c.toNat ≤ 122))

/-- C-locale `iswalnum`: ASCII letters and digits. -/
def iswalnum (c : Char) : Bool :=
  iswalpha c || decide (48 ≤ c.toNat ∧ c.toNat ≤ 57)

/-- C-locale `iswspace`: space, tab, newline, vertical tab, form feed, carriage return. -/
def iswspace (c : Char) : Bool :=
  decide (c.toNat = 32 ∨ (9 ≤ c.toNat ∧ c.toNat ≤ 13))

/-- C-locale `towupper`: map ASCII lowercase letters to uppercase. -/
def towupper (c : Char) : Char :=
  if 97 ≤ c.toNat ∧ c.toNat ≤ 122 then Char.ofNat (c.toNat - 32) else c

/-- Characters accepted by the tag-name loop in `scan_tag_name`
(scanner.c line 76): alphanumerics, underscore, hyphen, colon. -/
def isNameChar (c : Char) : Bool :=
  iswalnum c || decide (c = '_') || decide (c = '-') || decide (c = ':')

/-- The fixed reserved-word list of `is_reserved_word` (scanner.c line 55). -/
def reserved_words : List (List Char) :=
  ["template".toList, "slot".toList, "block".toList,
   "import".toList, "include".toList, "wxs".toList]

/-- Reserved-word test of scanner.c lines 54-63: the captured buffer equals
one of the reserved words (length and all characters, case-sensitively). -/
def is_reserved_word (word : List Char) : Bool :=
  decide (word ∈ reserved_words)

/-- Embedding of `scan_tag_name` (scanner.c lines 70-91).  Returns
`(accepted, consumed)`: on the precondition failure nothing is consumed;
otherwise the maximal run of name characters is consumed from the input,
but only the first `buffer_size - 1` of them are kept in `name_buffer`
for the reserved-word comparison. -/
def scan_tag_name (rest : List Char) (buffer_size : Nat) : Bool × Nat :=
  if (iswalpha (lookaheadOf rest) || decide (lookaheadOf rest = '_')) = false then
    (false, 0)
  else
    let run := rest.takeWhile isNameChar
    let name_buffer := run.take (buffer_size - 1)
    if is_reserved_word name_buffer then (false, run.length)
    else (decide (name_buffer.length > 0), run.length)

/-- The `while (lexer->lookahead)` loop of `scan_comment` (scanner.c lines
109-120), scanning for `-->` with a running count of consecutive dashes.
Returns `(found, consumed)`. -/
def comment_loop : List Char → Nat → Bool × Nat
  | [], _ => (false, 0)
  | c :: cs, dashes =>
    if c = NUL then (false, 0)
    else if c = '-' then
      let r := comment_loop cs (dashes + 1)
      (r.1, r.2 + 1)
    else if c = '>' ∧ dashes ≥ 2 then (true, 1)
    else
      let r := comment_loop cs 0
      (r.1, r.2 + 1)

/-- Embedding of `scan_comment` (scanner.c lines 97-122): expect the exact
prefix `<!--` (each mismatch fails, keeping the characters consumed so
far), then run the closing-delimiter loop. -/
def scan_comment (rest : List Char) : Bool × Nat :=
  if lookaheadOf rest ≠ '<' then (false, 0)
  else if lookaheadOf rest.tail ≠ '!' then (false, 1)
  else if lookaheadOf rest.tail.tail ≠ '-' then (false, 2)
  else if lookaheadOf rest.tail.tail.tail ≠ '-' then (false, 3)
  else
    let r := comment_loop rest.tail.tail.tail.tail 0
    (r.1, r.2 + 4)

/-- The main loop of `scan_raw_text` (scanner.c lines 138-175), with a fuel
argument for structural recursion; every iteration consumes at least one
character, so fuel `length + 1` is always sufficient and the fuel-0 arm is
never reached from `scan_raw_text`.  Returns
`(has_content, consumed, marked)` where `marked` is the position of the
last `mark_end` call (relative to entry), if any: the `<` branch marks the
position of the `<` before speculatively advancing through `/wxs>`
case-insensitively; a later mark overrides an earlier one. -/
def raw_loop : Nat → List Char → Bool → Bool × Nat × Option Nat
  | 0, _, has => (has, 0, none)
  | _ + 1, [], has => (has, 0, none)
  | fuel + 1, c :: cs, has =>
    if c = NUL then (has, 0, none)
    else if c = '<' then
      if lookaheadOf cs = '/' then
        if towupper (lookaheadOf cs.tail) = 'W' then
          if towupper (lookaheadOf cs.tail.tail) = 'X' then
            if towupper (lookaheadOf cs.tail.tail.tail) = 'S' then
              if lookaheadOf cs.tail.tail.tail.tail = '>' then
                (has, 5, some 0)
              else
                let r := raw_loop fuel cs.tail.tail.tail.tail true
                (r.1, r.2.1 + 5, some ((r.2.2.map (· + 5)).getD 0))
            else
              let r := raw_loop fuel cs.tail.tail.tail true
              (r.1, r.2.1 + 4, some ((r.2.2.map (· + 4)).getD 0))
          else
            let r := raw_loop fuel cs.tail.tail true
            (r.1, r.2.1 + 3, some ((r.2.2.map (· + 3)).getD 0))
        else
          let r := raw_loop fuel cs.tail true
          (r.1, r.2.1 + 2, some ((r.2.2.map (· + 2)).getD 0))
      else
        let r := raw_loop fuel cs true
        (r.1, r.2.1 + 1, some ((r.2.2.map (· + 1)).getD 0))
    else
      let r := raw_loop fuel cs true
      (r.1, r.2.1 + 1, r.2.2.map (· + 1))

/-- Embedding of `scan_raw_text` (scanner.c lines 134-176). -/
def scan_raw_text (rest : List Char) : Bool × Nat × Option Nat :=
  raw_loop (rest.length + 1) rest false

/-- The input begins with a case-insensitive `</wxs>` closing sequence —
exactly the chain of conditions tested by the speculative scan inside
`scan_raw_text`. -/
def startsWithClosing (l : List Char) : Bool :=
  decide (lookaheadOf l = '<') &&
  decide (lookaheadOf l.tail = '/') &&
  decide (towupper (lookaheadOf l.tail.tail) = 'W') &&
  decide (towupper (lookaheadOf l.tail.tail.tail) = 'X') &&
  decide (towupper (lookaheadOf l.tail.tail.tail.tail) = 'S') &&
  decide (lookaheadOf l.tail.tail.tail.tail.tail = '>')

/-- Some suffix of the input begins with a case-insensitive `</wxs>`. -/
def hasClosing : List Char → Bool
  | [] => false
  | c :: t => startsWithClosing (c :: t) || hasClosing t

/-- The input begins with the three characters `-->`. -/
def startsWithDDG (l : List Char) : Bool :=
  decide (lookaheadOf l = '-') &&
  decide (lookaheadOf l.tail = '-') &&
  decide (lookaheadOf l.tail.tail = '>')

/-- Some suffix of the input begins with `-->` (the input contains the
substring `-->`). -/
def hasDDG : List Char → Bool
  | [] => false
  | c :: t => startsWithDDG (c :: t) || hasDDG t

/-- Token kinds of the external scanner (scanner.c lines 19-27). -/
inductive TokenType where
  | START_TAG_NAME
  | END_TAG_NAME
  | SELF_CLOSING_TAG_DELIMITER
  | RAW_TEXT
  | COMMENT
  | INTERPOLATION_START
  | INTERPOLATION_END
deriving DecidableEq, Repr

/-- The `valid_symbols` admissibility flags passed by the host engine,
one per token kind. -/
structure ValidSymbols where
  start_tag_name : Bool
  end_tag_name : Bool
  self_closing_tag_delimiter : Bool
  raw_text : Bool
  comment : Bool
  interpolation_start : Bool
  interpolation_end : Bool
deriving DecidableEq, Repr

/-- Self-closing-delimiter block of the main scan (scanner.c lines 235-242)
followed by the final `return false`.  `rest` is the remaining input and
`pos` the number of significant characters consumed so far in this scan. -/
def scan_stage6 (valid : ValidSymbols) (rest : List Char) (pos : Nat) :
    Option (TokenType × Nat) :=
  if valid.self_closing_tag_delimiter = true ∧ lookaheadOf rest = '/' then
    if lookaheadOf rest.tail = '>' then
      some (TokenType.SELF_CLOSING_TAG_DELIMITER, pos + 2)
    else none
  else none

/-- Tag-name block of the main scan (scanner.c lines 226-232): on failure
the characters consumed by `scan_tag_name` remain consumed and control
falls through to the next block. -/
def scan_stage5 (valid : ValidSymbols) (rest : List Char) (pos : Nat) :
    Option (TokenType × Nat) :=
  if valid.start_tag_name = true ∨ valid.end_tag_name = true then
    if (scan_tag_name rest 64).1 then
      some ((if valid.start_tag_name then TokenType.START_TAG_NAME
             else TokenType.END_TAG_NAME),
            pos + (scan_tag_name rest 64).2)
    else scan_stage6 valid (rest.drop (scan_tag_name rest 64).2)
           (pos + (scan_tag_name rest 64).2)
  else scan_stage6 valid rest pos

/-- Raw-text block of the main scan (scanner.c lines 221-223): when
admissible, the scan returns `scan_raw_text`'s verdict directly.  The
reported span ends at the last marked position if a mark was recorded,
otherwise at the final cursor position. -/
def scan_stage4 (valid : ValidSymbols) (rest : List Char) (pos : Nat) :
    Option (TokenType × Nat) :=
  if valid.raw_text = true then
    if (scan_raw_text rest).1 then
      some (TokenType.RAW_TEXT, pos + ((scan_raw_text rest).2.2.getD (scan_raw_text rest).2.1))
    else none
  else scan_stage5 valid rest pos

/-- Comment block of the main scan (scanner.c lines 213-218): on failure the
characters consumed by `scan_comment` remain consumed. -/
def scan_stage3 (valid : ValidSymbols) (rest : List Char) (pos : Nat) :
    Option (TokenType × Nat) :=
  if valid.comment = true ∧ lookaheadOf rest = '<' then
    if (scan_comment rest).1 then some (TokenType.COMMENT, pos + (scan_comment rest).2)
    else scan_stage4 valid (rest.drop (scan_comment rest).2) (pos + (scan_comment rest).2)
  else scan_stage4 valid rest pos

/-- Interpolation-end block of the main scan (scanner.c lines 203-210): on a
partial match the consumed `\x7d` remains consumed. -/
def scan_stage2 (valid : ValidSymbols) (rest : List Char) (pos : Nat) :
    Option (TokenType × Nat) :=
  if valid.interpolation_end = true ∧ lookaheadOf rest = '\x7d' then
    if lookaheadOf rest.tail = '\x7d' then some (TokenType.INTERPOLATION_END, pos + 2)
    else scan_stage3 valid rest.tail (pos + 1)
  else scan_stage3 valid rest pos

/-- Interpolation-start block of the main scan (scanner.c lines 193-200): on
a partial match the consumed `\x7b` remains consumed. -/
def scan_stage1 (valid : ValidSymbols) (rest : List Char) (pos : Nat) :
    Option (TokenType × Nat) :=
  if valid.interpolation_start = true ∧ lookaheadOf rest = '\x7b' then
    if lookaheadOf rest.tail = '\x7b' then some (TokenType.INTERPOLATION_START, pos + 2)
    else scan_stage2 valid rest.tail (pos + 1)
  else scan_stage2 valid rest pos

/-- Embedding of `tree_sitter_wxml_external_scanner_scan` (scanner.c lines
183-245): skip whitespace as trivia, then run through the candidate blocks
in source order. -/
def tree_sitter_wxml_external_scanner_scan (valid : ValidSymbols)
    (input : List Char) : Option (TokenType × Nat) :=
  scan_stage1 valid (input.dropWhile iswspace) 0

/-- Outcome of one candidate recognizer inside the dispatch: a token (with
its span end), a hard stop deciding the whole scan as no-match, or a fall
through to the next candidate with the cursor possibly advanced. -/
inductive StageOut where
  | success : TokenType → Nat → StageOut
  | finish : StageOut
  | fallthrough : List Char → Nat → StageOut
deriving DecidableEq, Repr

/-- A candidate recognizer of the dispatch policy. -/
def Stage : Type := ValidSymbols → List Char → Nat → StageOut

/-- Interpolation-start candidate as a dispatch stage. -/
def stage_interpolation_start : Stage := fun valid rest pos =>
  if valid.interpolation_start = true ∧ lookaheadOf rest = '\x7b' then
    if lookaheadOf rest.tail = '\x7b' then StageOut.success TokenType.INTERPOLATION_START (pos + 2)
    else StageOut.fallthrough rest.tail (pos + 1)
  else StageOut.fallthrough rest pos

/-- Interpolation-end candidate as a dispatch stage. -/
def stage_interpolation_end : Stage := fun valid rest pos =>
  if valid.interpolation_end = true ∧ lookaheadOf rest = '\x7d' then
    if lookaheadOf rest.tail = '\x7d' then StageOut.success TokenType.INTERPOLATION_END (pos + 2)
    else StageOut.fallthrough rest.tail (pos + 1)
  else StageOut.fallthrough rest pos

/-- Comment candidate as a dispatch stage. -/
def stage_comment : Stage := fun valid rest pos =>
  if valid.comment = true ∧ lookaheadOf rest = '<' then
    if (scan_comment rest).1 then StageOut.success TokenType.COMMENT (pos + (scan_comment rest).2)
    else StageOut.fallthrough (rest.drop (scan_comment rest).2) (pos + (scan_comment rest).2)
  else StageOut.fallthrough rest pos

/-- Raw-text candidate as a dispatch stage: when admissible it always
decides the scan (success or hard stop), never falling through. -/
def stage_raw_text : Stage := fun valid rest pos =>
  if valid.raw_text = true then
    if (scan_raw_text rest).1 then
      StageOut.success TokenType.RAW_TEXT
        (pos + ((scan_raw_text rest).2.2.getD (scan_raw_text rest).2.1))
    else StageOut.finish
  else StageOut.fallthrough rest pos

/-- Tag-name candidate as a dispatch stage. -/
def stage_tag_name : Stage := fun valid rest pos =>
  if valid.start_tag_name = true ∨ valid.end_tag_name = true then
    if (scan_tag_name rest 64).1 then
      StageOut.success
        (if valid.start_tag_name then TokenType.START_TAG_NAME else TokenType.END_TAG_NAME)
        (pos + (scan_tag_name rest 64).2)
    else StageOut.fallthrough (rest.drop (scan_tag_name rest 64).2)
           (pos + (scan_tag_name rest 64).2)
  else StageOut.fallthrough rest pos

/-- Self-closing-delimiter candidate as a dispatch stage. -/
def stage_self_closing_tag_delimiter : Stage := fun valid rest pos =>
  if valid.self_closing_tag_delimiter = true ∧ lookaheadOf rest = '/' then
    if lookaheadOf rest.tail = '>' then
      StageOut.success TokenType.SELF_CLOSING_TAG_DELIMITER (pos + 2)
    else StageOut.fallthrough rest.tail (pos + 1)
  else StageOut.fallthrough rest pos

/-- Run candidate stages in order, returning at the first success,
stopping on a hard stop, and passing the (possibly advanced) cursor state
to the next stage otherwise; an exhausted candidate list is no-match. -/
def runStages : List Stage → ValidSymbols → List Char → Nat → Option (TokenType × Nat)
  | [], _, _, _ => none
  | s :: ss, valid, rest, pos =>
    match s valid rest pos with
    | StageOut.success t e => some (t, e)
    | StageOut.finish => none
    | StageOut.fallthrough r2 p2 => runStages ss valid r2 p2

/-- The fixed candidate order of the dispatch policy. -/
def dispatch_order : List Stage :=
  [stage_interpolation_start, stage_interpolation_end, stage_comment,
   stage_raw_text, stage_tag_name, stage_self_closing_tag_delimiter]

/-- Admissibility set with only start-tag-name set. -/
def onlyStart : ValidSymbols := ⟨true, false, false, false, false, false, false⟩

/-- Admissibility set with only end-tag-name set. -/
def onlyEnd : ValidSymbols := ⟨false, true, false, false, false, false, false⟩

/-- Admissibility set with both tag-name kinds set. -/
def startAndEnd : ValidSymbols := ⟨true, true, false, false, false, false, false⟩

/-- Admissibility set with only raw-text set. -/
def rawOnly : ValidSymbols := ⟨false, false, false, true, false, false, false⟩

/-- Admissibility set with only comment set. -/
def onlyComment : ValidSymbols := ⟨false, false, false, false, true, false, false⟩

/-- Admissibility set with only interpolation-start set. -/
def onlyInterpStart : ValidSymbols := ⟨false, false, false, false, false, true, false⟩

/-- Admissibility set with only interpolation-end set. -/
def onlyInterpEnd : ValidSymbols := ⟨false, false, false, false, false, false, true⟩

/-- Admissibility set with only the self-closing delimiter set. -/
def onlySelfClosing : ValidSymbols := ⟨false, false, true, false, false, false, false⟩

/-- Admissibility set with interpolation-start and start-tag-name set. -/
def interpStartAndTag : ValidSymbols := ⟨true, false, false, false, false, true, false⟩

/-! ### Basic lemmas about the stage structure -/

/-- A stage whose guard character does not match passes through unchanged:
interpolation start. -/
lemma scan_stage1_pass (v : ValidSymbols) (r : List Char) (p : Nat)
    (h : lookaheadOf r ≠ '\x7b') : scan_stage1 v r p = scan_stage2 v r p := by
  simp [scan_stage1, h]

/-- A stage whose guard character does not match passes through unchanged:
interpolation end. -/
lemma scan_stage2_pass (v : ValidSymbols) (r : List Char) (p : Nat)
    (h : lookaheadOf r ≠ '\x7d') : scan_stage2 v r p = scan_stage3 v r p := by
  simp [scan_stage2, h]

/-- The comment stage passes through when the lookahead is not `<`. -/
lemma scan_stage3_pass_char (v : ValidSymbols) (r : List Char) (p : Nat)
    (h : lookaheadOf r ≠ '<') : scan_stage3 v r p = scan_stage4 v r p := by
  simp [scan_stage3, h]

/-- The comment stage passes through when comments are not admissible. -/
lemma scan_stage3_pass_flag (v : ValidSymbols) (r : List Char) (p : Nat)
    (h : v.comment = false) : scan_stage3 v r p = scan_stage4 v r p := by
  simp [scan_stage3, h]

/-- The raw-text stage passes through when raw text is not admissible. -/
lemma scan_stage4_pass_flag (v : ValidSymbols) (r : List Char) (p : Nat)
    (h : v.raw_text = false) : scan_stage4 v r p = scan_stage5 v r p := by
  simp [scan_stage4, h]

/-- The tag-name stage passes through when neither tag-name kind is
admissible. -/
lemma scan_stage5_pass_flag (v : ValidSymbols) (r : List Char) (p : Nat)
    (h1 : v.start_tag_name = false) (h2 : v.end_tag_name = false) :
    scan_stage5 v r p = scan_stage6 v r p := by
  simp [scan_stage5, h1, h2]

/-- The final stage yields no match when the self-closing delimiter is not
admissible. -/
lemma scan_stage6_flag (v : ValidSymbols) (r : List Char) (p : Nat)
    (h : v.self_closing_tag_delimiter = false) : scan_stage6 v r p = none := by
  simp [scan_stage6, h]

/-- Skipping whitespace is the identity when the first character is not
whitespace. -/
lemma dropWhile_iswspace_id (l : List Char) (h : iswspace (lookaheadOf l) = false) :
    l.dropWhile iswspace = l := by
  cases l with
  | nil => rfl
  | cons c t =>
    have hc : iswspace c = false := h
    simp [List.dropWhile_cons, hc]

/-! ### Equivalence of the scan with the ordered dispatch (claim C1) -/

/-- The self-closing block equals running the corresponding single-stage
dispatch. -/
lemma scan_stage6_eq_run (v : ValidSymbols) (r : List Char) (p : Nat) :
    scan_stage6 v r p = runStages [stage_self_closing_tag_delimiter] v r p := by
  by_cases hC : v.self_closing_tag_delimiter = true ∧ lookaheadOf r = '/'
  · by_cases hD : lookaheadOf r.tail = '>'
    · simp [scan_stage6, stage_self_closing_tag_delimiter, runStages, hC, hD]
    · simp [scan_stage6, stage_self_closing_tag_delimiter, runStages, hC, hD]
  · simp [scan_stage6, stage_self_closing_tag_delimiter, runStages, hC]

/-- The tag-name block onward equals running the last two dispatch stages. -/
lemma scan_stage5_eq_run (v : ValidSymbols) (r : List Char) (p : Nat) :
    scan_stage5 v r p =
      runStages [stage_tag_name, stage_self_closing_tag_delimiter] v r p := by
  by_cases hC : v.start_tag_name = true ∨ v.end_tag_name = true
  · by_cases hD : (scan_tag_name r 64).1 = true
    · simp [scan_stage5, stage_tag_name, runStages, hC, hD]
    · simp [scan_stage5, stage_tag_name, runStages, hC, hD, scan_stage6_eq_run]
  · simp [scan_stage5, stage_tag_name, runStages, hC, scan_stage6_eq_run]

/-- The raw-text block onward equals running the last three dispatch
stages. -/
lemma scan_stage4_eq_run (v : ValidSymbols) (r : List Char) (p : Nat) :
    scan_stage4 v r p =
      runStages [stage_raw_text, stage_tag_name, stage_self_closing_tag_delimiter] v r p := by
  by_cases hC : v.raw_text = true
  · by_cases hD : (scan_raw_text r).1 = true
    · simp [scan_stage4, stage_raw_text, runStages, hC, hD]
    · simp [scan_stage4, stage_raw_text, runStages, hC, hD]
  · simp [scan_stage4, stage_raw_text, runStages, hC, scan_stage5_eq_run]

/-- The comment block onward equals running the last four dispatch stages. -/
lemma scan_stage3_eq_run (v : ValidSymbols) (r : List Char) (p : Nat) :
    scan_stage3 v r p =
      runStages [stage_comment, stage_raw_text, stage_tag_name,
                 stage_self_closing_tag_delimiter] v r p := by
  by_cases hC : v.comment = true ∧ lookaheadOf r = '<'
  · by_cases hD : (scan_comment r).1 = true
    · simp [scan_stage3, stage_comment, runStages, hC, hD]
    · simp [scan_stage3, stage_comment, runStages, hC, hD, scan_stage4_eq_run]
  · simp [scan_stage3, stage_comment, runStages, hC, scan_stage4_eq_run]

/-- The interpolation-end block onward equals running the last five dispatch
stages. -/
lemma scan_stage2_eq_run (v : ValidSymbols) (r : List Char) (p : Nat) :
    scan_stage2 v r p =
      runStages [stage_interpolation_end, stage_comment, stage_raw_text,
                 stage_tag_name, stage_self_closing_tag_delimiter] v r p := by
  by_cases hC : v.interpolation_end = true ∧ lookaheadOf r = '\x7d'
  · by_cases hD : lookaheadOf r.tail = '\x7d'
    · simp [scan_stage2, stage_interpolation_end, runStages, hC, hD]
    · simp [scan_stage2, stage_interpolation_end, runStages, hC, hD, scan_stage3_eq_run]
  · simp [scan_stage2, stage_interpolation_end, runStages, hC, scan_stage3_eq_run]

/-- The whole post-whitespace scan equals running all six dispatch stages in
order. -/
lemma scan_stage1_eq_run (v : ValidSymbols) (r : List Char) (p : Nat) :
    scan_stage1 v r p = runStages dispatch_order v r p := by
  by_cases hC : v.interpolation_start = true ∧ lookaheadOf r = '\x7b'
  · by_cases hD : lookaheadOf r.tail = '\x7b'
    · simp [scan_stage1, stage_interpolation_start, runStages, dispatch_order, hC, hD]
    · simp [scan_stage1, stage_interpolation_start, runStages, dispatch_order, hC, hD,
            scan_stage2_eq_run]
  · simp [scan_stage1, stage_interpolation_start, runStages, dispatch_order, hC,
          scan_stage2_eq_run]

/-- C1: the scan is the ordered, short-circuiting dispatch — interpolation
start, interpolation end, comment, raw text, tag name, self-closing
delimiter, each attempted only when its flag is admissible, returning at
the first success — and whenever raw text is admissible the raw-text stage
never falls through: its outcome (success or hard stop) is the whole scan's
outcome and no later candidate is tried. -/
theorem c1_dispatch_order :
    (∀ (v : ValidSymbols) (input : List Char),
      tree_sitter_wxml_external_scanner_scan v input =
        runStages dispatch_order v (input.dropWhile iswspace) 0) ∧
    (∀ (v : ValidSymbols) (r : List Char) (p : Nat), v.raw_text = true →
      ∀ (r2 : List Char) (p2 : Nat), stage_raw_text v r p ≠ StageOut.fallthrough r2 p2) := by
  constructor
  · intro v input
    rw [tree_sitter_wxml_external_scanner_scan, scan_stage1_eq_run]
  · intro v r p h r2 p2
    by_cases hD : (scan_raw_text r).1 = true
    · simp [stage_raw_text, h, hD]
    · simp [stage_raw_text, h, hD]

/-- Witness for C1: the dispatch equality at a concrete admissibility set
and input, and the raw-text stage concretely not falling through. -/
theorem c1_dispatch_order_witness :
    (tree_sitter_wxml_external_scanner_scan onlyStart ['a'] =
      runStages dispatch_order onlyStart (['a'].dropWhile iswspace) 0) ∧
    stage_raw_text rawOnly ['a'] 0 ≠ StageOut.fallthrough ['a'] 0 :=
  ⟨c1_dispatch_order.1 onlyStart ['a'],
   c1_dispatch_order.2 rawOnly ['a'] 0 rfl ['a'] 0⟩

/-! ### Tag-name recognition lemmas (claims C2, C8, C10) -/

/-- The reserved-word list, spelled as character lists. -/
lemma reserved_words_chars :
    reserved_words =
      [['t','e','m','p','l','a','t','e'], ['s','l','o','t'], ['b','l','o','c','k'],
       ['i','m','p','o','r','t'], ['i','n','c','l','u','d','e'], ['w','x','s']] := rfl

/-- Every reserved word is at most eight characters long. -/
lemma reserved_words_short : ∀ u ∈ reserved_words, u.length ≤ 8 := by decide

/-- Facts about a character that can begin a tag name (an ASCII letter or
underscore): it is not whitespace, none of the guard characters of the
earlier stages, and a name character. -/
lemma ident_head_facts (c : Char) (h : iswalpha c = true ∨ c = '_') :
    iswspace c = false ∧ c ≠ '\x7b' ∧ c ≠ '\x7d' ∧ c ≠ '<' ∧ isNameChar c = true := by
  rcases h with h | rfl
  · have hb := h
    rw [iswalpha, decide_eq_true_eq] at hb
    refine ⟨?_, ?_, ?_, ?_, ?_⟩
    · rw [iswspace, decide_eq_false_iff_not]
      omega
    · intro he; rw [he] at hb; exact absurd hb (by decide)
    · intro he; rw [he] at hb; exact absurd hb (by decide)
    · intro he; rw [he] at hb; exact absurd hb (by decide)
    · simp [isNameChar, iswalnum, h]
  · decide

/-- Taking name characters from `w ++ rest` yields exactly `w` when every
character of `w` is a name character and the next character is not. -/
lemma takeWhile_name_append (w rest : List Char)
    (hw : ∀ c ∈ w, isNameChar c = true)
    (hr : isNameChar (lookaheadOf rest) = false) :
    (w ++ rest).takeWhile isNameChar = w := by
  induction w with
  | nil =>
    cases rest with
    | nil => rfl
    | cons h t =>
      have : isNameChar h = false := hr
      simp [List.takeWhile_cons, this]
  | cons a w ih =>
    have ha : isNameChar a = true := hw a (List.mem_cons_self a w)
    simp [List.takeWhile_cons, ha,
          ih (fun c hc => hw c (List.mem_cons_of_mem a hc))]

/-- Behaviour of `scan_tag_name` on an identifier-shaped input: the whole
identifier is consumed, and acceptance is decided on the buffer-truncated
prefix. -/
lemma scan_tag_name_append (c : Char) (cs rest : List Char) (bsz : Nat)
    (hc : (iswalpha c || decide (c = '_')) = true)
    (hall : ∀ x ∈ (c :: cs), isNameChar x = true)
    (hr : isNameChar (lookaheadOf rest) = false) :
    scan_tag_name ((c :: cs) ++ rest) bsz =
      (if is_reserved_word ((c :: cs).take (bsz - 1)) then false
       else decide (((c :: cs).take (bsz - 1)).length > 0), (c :: cs).length) := by
  have hla : lookaheadOf ((c :: cs) ++ rest) = c := rfl
  have hrun : ((c :: cs) ++ rest).takeWhile isNameChar = c :: cs :=
    takeWhile_name_append (c :: cs) rest hall hr
  rw [scan_tag_name, hla, hc]
  simp only [Bool.true_eq_false, if_false, hrun]
  by_cases hres : is_reserved_word ((c :: cs).take (bsz - 1)) = true
  · simp [hres]
  · simp only [Bool.not_eq_true] at hres
    simp [hres]

/-- Full scan on an identifier-shaped input when raw text is not admissible
and a tag-name kind is requested: stages one to four pass through, and the
tag-name stage decides by the (truncated) reserved-word check. -/
lemma scan_ident_input (v : ValidSymbols) (c : Char) (cs rest : List Char)
    (hraw : v.raw_text = false)
    (hflag : v.start_tag_name = true ∨ v.end_tag_name = true)
    (hc : iswalpha c = true ∨ c = '_')
    (hall : ∀ x ∈ (c :: cs), isNameChar x = true)
    (hr : isNameChar (lookaheadOf rest) = false) :
    tree_sitter_wxml_external_scanner_scan v ((c :: cs) ++ rest) =
      if is_reserved_word ((c :: cs).take 63) then scan_stage6 v rest (c :: cs).length
      else some ((if v.start_tag_name then TokenType.START_TAG_NAME
                  else TokenType.END_TAG_NAME), (c :: cs).length) := by
  obtain ⟨hws, hb1, hb2, hlt, _⟩ := ident_head_facts c hc
  have hla : lookaheadOf ((c :: cs) ++ rest) = c := rfl
  have hcb : (iswalpha c || decide (c = '_')) = true := by
    rcases hc with h | h
    · simp [h]
    · simp [h]
  rw [tree_sitter_wxml_external_scanner_scan,
      dropWhile_iswspace_id _ (by rw [hla]; exact hws),
      scan_stage1_pass _ _ _ (by rw [hla]; exact hb1),
      scan_stage2_pass _ _ _ (by rw [hla]; exact hb2),
      scan_stage3_pass_char _ _ _ (by rw [hla]; exact hlt),
      scan_stage4_pass_flag _ _ _ hraw,
      scan_stage5, if_pos hflag,
      scan_tag_name_append c cs rest 64 hcb hall hr]
  by_cases hres : is_reserved_word ((c :: cs).take 63) = true
  · simp only [show (64 - 1 : Nat) = 63 from rfl, hres, if_true, Bool.false_eq_true,
               if_false, Nat.zero_add, List.length_cons, List.cons_append,
               List.drop_succ_cons, List.drop_left]
  · simp only [Bool.not_eq_true] at hres
    have hlen : decide (0 < ((c :: cs).take 63).length) = true := by
      simp [List.take_succ_cons]
    simp only [show (64 - 1 : Nat) = 63 from rfl, hres, Bool.false_eq_true, if_false,
               hlen, if_true, Nat.zero_add, List.length_cons]

/-- A list that is not reserved remains non-reserved after truncation to the
63-character comparison buffer (reserved words are far shorter than the
buffer). -/
lemma not_reserved_take (w : List Char) (hw : w ∉ reserved_words) :
    is_reserved_word (w.take 63) = false := by
  apply decide_eq_false
  intro hmem
  by_cases hlen : w.length ≤ 63
  · rw [List.take_of_length_le hlen] at hmem
    exact hw hmem
  · have h8 := reserved_words_short _ hmem
    rw [List.length_take] at h8
    omega

/-- C2: scanning a reserved word (template, slot, block, import, include,
wxs) followed by end of input or a character outside the name alphabet,
with start- or end-tag-name admissible and no other flag set, yields
no-match. -/
theorem c2_reserved_word_no_match (bs be : Bool) (w rest : List Char)
    (hflag : bs = true ∨ be = true)
    (hw : w ∈ reserved_words)
    (hr : isNameChar (lookaheadOf rest) = false) :
    tree_sitter_wxml_external_scanner_scan
      ⟨bs, be, false, false, false, false, false⟩ (w ++ rest) = none := by
  rw [reserved_words_chars] at hw
  simp only [List.mem_cons, List.not_mem_nil, or_false] at hw
  rcases hw with rfl | rfl | rfl | rfl | rfl | rfl <;>
    rw [scan_ident_input _ _ _ _ rfl hflag (by decide) (by decide) hr,
        if_pos (by decide), scan_stage6_flag _ _ _ rfl]

/-- Witness for C2 at the reserved word wxs with start-tag-name admissible
and empty following input. -/
theorem c2_reserved_word_no_match_witness :
    tree_sitter_wxml_external_scanner_scan
      ⟨true, false, false, false, false, false, false⟩ ("wxs".toList ++ []) = none :=
  c2_reserved_word_no_match true false ("wxs".toList) [] (Or.inl rfl) (by decide) (by decide)

/-- C8: scanning a non-reserved identifier (letter or underscore followed by
name characters, ended by end of input or a non-name character) with a
tag-name kind admissible (and raw text not admissible) succeeds, consumes
exactly the identifier, and reports a span equal to the identifier's
length; no length restriction — identifiers longer than the 63-byte
comparison buffer are fully consumed as well, only the reserved-word
comparison seeing the truncated prefix. -/
theorem c8_identifier_scan (v : ValidSymbols) (c : Char) (cs rest : List Char)
    (hraw : v.raw_text = false)
    (hflag : v.start_tag_name = true ∨ v.end_tag_name = true)
    (hc : iswalpha c = true ∨ c = '_')
    (hall : ∀ x ∈ (c :: cs), isNameChar x = true)
    (hr : isNameChar (lookaheadOf rest) = false)
    (hnres : (c :: cs) ∉ reserved_words) :
    tree_sitter_wxml_external_scanner_scan v ((c :: cs) ++ rest) =
      some ((if v.start_tag_name then TokenType.START_TAG_NAME
             else TokenType.END_TAG_NAME), (c :: cs).length) := by
  rw [scan_ident_input v c cs rest hraw hflag hc hall hr]
  rw [not_reserved_take _ hnres]
  simp

/-- Witness for C8 at the identifier `ab` with only start-tag-name
admissible. -/
theorem c8_identifier_scan_witness :
    tree_sitter_wxml_external_scanner_scan onlyStart (('a' :: ['b']) ++ []) =
      some ((if onlyStart.start_tag_name then TokenType.START_TAG_NAME
             else TokenType.END_TAG_NAME), ('a' :: ['b']).length) :=
  c8_identifier_scan onlyStart 'a' ['b'] [] rfl (Or.inl rfl) (Or.inl (by decide))
    (by decide) (by decide) (by decide)

/-! ### Tag-kind preference (claim C10) -/

/-- Any token produced by the final stage is the self-closing delimiter. -/
lemma scan_stage6_kind (v : ValidSymbols) (r : List Char) (p n : Nat) (t : TokenType)
    (h : scan_stage6 v r p = some (t, n)) : t = TokenType.SELF_CLOSING_TAG_DELIMITER := by
  by_cases hC : v.self_closing_tag_delimiter = true ∧ lookaheadOf r = '/'
  · by_cases hD : lookaheadOf r.tail = '>'
    · rw [scan_stage6, if_pos hC, if_pos hD] at h
      exact (Prod.mk.injEq _ _ _ _ ▸ Option.some.inj h).1.symm
    · rw [scan_stage6, if_pos hC, if_neg hD] at h
      exact absurd h (by simp)
  · rw [scan_stage6, if_neg hC] at h
    exact absurd h (by simp)

/-- If the tag-name stage onward reports an end-tag-name token, then
start-tag-name was not admissible. -/
lemma scan_stage5_end_kind (v : ValidSymbols) (r : List Char) (p n : Nat)
    (h : scan_stage5 v r p = some (TokenType.END_TAG_NAME, n)) :
    v.start_tag_name = false := by
  by_cases hC : v.start_tag_name = true ∨ v.end_tag_name = true
  · by_cases hD : (scan_tag_name r 64).1 = true
    · rw [scan_stage5, if_pos hC, if_pos hD] at h
      cases hb : v.start_tag_name
      · rfl
      · rw [hb] at h
        simp at h
    · rw [scan_stage5, if_pos hC, if_neg hD] at h
      exact absurd (scan_stage6_kind _ _ _ _ _ h) (by decide)
  · rw [scan_stage5, if_neg hC] at h
    exact absurd (scan_stage6_kind _ _ _ _ _ h) (by decide)

/-- If the raw-text stage onward reports an end-tag-name token, then
start-tag-name was not admissible. -/
lemma scan_stage4_end_kind (v : ValidSymbols) (r : List Char) (p n : Nat)
    (h : scan_stage4 v r p = some (TokenType.END_TAG_NAME, n)) :
    v.start_tag_name = false := by
  by_cases hC : v.raw_text = true
  · by_cases hD : (scan_raw_text r).1 = true
    · rw [scan_stage4, if_pos hC, if_pos hD] at h
      simp at h
    · rw [scan_stage4, if_pos hC, if_neg hD] at h
      exact absurd h (by simp)
  · rw [scan_stage4, if_neg hC] at h
    exact scan_stage5_end_kind _ _ _ _ h

/-- If the comment stage onward reports an end-tag-name token, then
start-tag-name was not admissible. -/
lemma scan_stage3_end_kind (v : ValidSymbols) (r : List Char) (p n : Nat)
    (h : scan_stage3 v r p = some (TokenType.END_TAG_NAME, n)) :
    v.start_tag_name = false := by
  by_cases hC : v.comment = true ∧ lookaheadOf r = '<'
  · by_cases hD : (scan_comment r).1 = true
    · rw [scan_stage3, if_pos hC, if_pos hD] at h
      simp at h
    · rw [scan_stage3, if_pos hC, if_neg hD] at h
      exact scan_stage4_end_kind _ _ _ _ h
  · rw [scan_stage3, if_neg hC] at h
    exact scan_stage4_end_kind _ _ _ _ h

/-- If the interpolation-end stage onward reports an end-tag-name token,
then start-tag-name was not admissible. -/
lemma scan_stage2_end_kind (v : ValidSymbols) (r : List Char) (p n : Nat)
    (h : scan_stage2 v r p = some (TokenType.END_TAG_NAME, n)) :
    v.start_tag_name = false := by
  by_cases hC : v.interpolation_end = true ∧ lookaheadOf r = '\x7d'
  · by_cases hD : lookaheadOf r.tail = '\x7d'
    · rw [scan_stage2, if_pos hC, if_pos hD] at h
      simp at h
    · rw [scan_stage2, if_pos hC, if_neg hD] at h
      exact scan_stage3_end_kind _ _ _ _ h
  · rw [scan_stage2, if_neg hC] at h
    exact scan_stage3_end_kind _ _ _ _ h

/-- If the whole post-whitespace scan reports an end-tag-name token, then
start-tag-name was not admissible. -/
lemma scan_stage1_end_kind (v : ValidSymbols) (r : List Char) (p n : Nat)
    (h : scan_stage1 v r p = some (TokenType.END_TAG_NAME, n)) :
    v.start_tag_name = false := by
  by_cases hC : v.interpolation_start = true ∧ lookaheadOf r = '\x7b'
  · by_cases hD : lookaheadOf r.tail = '\x7b'
    · rw [scan_stage1, if_pos hC, if_pos hD] at h
      simp at h
    · rw [scan_stage1, if_pos hC, if_neg hD] at h
      exact scan_stage2_end_kind _ _ _ _ h
  · rw [scan_stage1, if_neg hC] at h
    exact scan_stage2_end_kind _ _ _ _ h

/-- C10: when both tag-name kinds are admissible and the tag-name
recognizer accepts, the scanner reports start-tag-name; an end-tag-name
token is ever reported only when start-tag-name is not admissible. -/
theorem c10_start_preferred :
    (∀ (v : ValidSymbols) (input : List Char) (n : Nat),
      tree_sitter_wxml_external_scanner_scan v input = some (TokenType.END_TAG_NAME, n) →
      v.start_tag_name = false) ∧
    (∀ (v : ValidSymbols) (r : List Char) (p : Nat),
      v.start_tag_name = true → v.end_tag_name = true →
      (scan_tag_name r 64).1 = true →
      scan_stage5 v r p = some (TokenType.START_TAG_NAME, p + (scan_tag_name r 64).2)) := by
  constructor
  · intro v input n h
    rw [tree_sitter_wxml_external_scanner_scan] at h
    exact scan_stage1_end_kind _ _ _ _ h
  · intro v r p hs he hok
    rw [scan_stage5, if_pos (Or.inl hs), if_pos hok, hs]
    simp

/-- Witness for C10: with only end-tag-name admissible, input `a` scans as
an end tag name (so the first part applies), and with both kinds
admissible the tag-name stage on `a` reports start-tag-name. -/
theorem c10_start_preferred_witness :
    onlyEnd.start_tag_name = false ∧
    scan_stage5 startAndEnd ['a'] 0 =
      some (TokenType.START_TAG_NAME, 0 + (scan_tag_name ['a'] 64).2) :=
  ⟨c10_start_preferred.1 onlyEnd ['a'] 1 (by decide),
   c10_start_preferred.2 startAndEnd ['a'] 0 rfl rfl (by decide)⟩

/-! ### Two-character delimiter behaviour (claim C9) -/

/-- The lookahead of a non-empty input is its first character. -/
lemma lookaheadOf_cons (c : Char) (l : List Char) : lookaheadOf (c :: l) = c := rfl

/-- The interpolation-start stage passes through when not admissible. -/
lemma scan_stage1_pass_flag (v : ValidSymbols) (r : List Char) (p : Nat)
    (h : v.interpolation_start = false) : scan_stage1 v r p = scan_stage2 v r p := by
  simp [scan_stage1, h]

/-- The interpolation-end stage passes through when not admissible. -/
lemma scan_stage2_pass_flag (v : ValidSymbols) (r : List Char) (p : Nat)
    (h : v.interpolation_end = false) : scan_stage2 v r p = scan_stage3 v r p := by
  simp [scan_stage2, h]

/-- Counterexample to C9 as stated: on input `\x7ba` the failed
interpolation-start attempt consumes the opening brace, and the tag-name
candidate then matches `a` — with the admissibility set
{interpolation-start, start-tag-name} the scan yields a start-tag-name
token, while without the interpolation-start flag (the outcome had the
failed attempt consumed nothing) the same input yields no-match. -/
theorem c9_counterexample :
    tree_sitter_wxml_external_scanner_scan interpStartAndTag ['\x7b', 'a'] =
      some (TokenType.START_TAG_NAME, 2) ∧
    tree_sitter_wxml_external_scanner_scan onlyStart ['\x7b', 'a'] = none ∧
    onlyStart = ⟨interpStartAndTag.start_tag_name, interpStartAndTag.end_tag_name,
                 interpStartAndTag.self_closing_tag_delimiter, interpStartAndTag.raw_text,
                 interpStartAndTag.comment, false, interpStartAndTag.interpolation_end⟩ := by
  decide

/-- C9 amended: a failed two-character delimiter attempt (first character
matched, second not) leaves the first character consumed inside the scan;
this is invisible to the grammar exactly when no later candidate can act
on it — in particular, when the failed delimiter's flag is the only
admissible one the whole scan reports no-match. -/
theorem c9_amended_partial_delimiter :
    (∀ rest : List Char, lookaheadOf rest ≠ '\x7b' →
      tree_sitter_wxml_external_scanner_scan onlyInterpStart ('\x7b' :: rest) = none) ∧
    (∀ rest : List Char, lookaheadOf rest ≠ '\x7d' →
      tree_sitter_wxml_external_scanner_scan onlyInterpEnd ('\x7d' :: rest) = none) ∧
    (∀ rest : List Char, lookaheadOf rest ≠ '>' →
      tree_sitter_wxml_external_scanner_scan onlySelfClosing ('/' :: rest) = none) := by
  refine ⟨fun rest h => ?_, fun rest h => ?_, fun rest h => ?_⟩
  · rw [tree_sitter_wxml_external_scanner_scan,
        dropWhile_iswspace_id ('\x7b' :: rest) (by rw [lookaheadOf_cons]; decide),
        scan_stage1, if_pos ⟨rfl, rfl⟩]
    rw [show ('\x7b' :: rest).tail = rest from rfl, if_neg h,
        scan_stage2_pass_flag _ _ _ rfl, scan_stage3_pass_flag _ _ _ rfl,
        scan_stage4_pass_flag _ _ _ rfl, scan_stage5_pass_flag _ _ _ rfl rfl,
        scan_stage6_flag _ _ _ rfl]
  · rw [tree_sitter_wxml_external_scanner_scan,
        dropWhile_iswspace_id ('\x7d' :: rest) (by rw [lookaheadOf_cons]; decide),
        scan_stage1_pass_flag _ _ _ rfl,
        scan_stage2, if_pos ⟨rfl, rfl⟩]
    rw [show ('\x7d' :: rest).tail = rest from rfl, if_neg h,
        scan_stage3_pass_flag _ _ _ rfl,
        scan_stage4_pass_flag _ _ _ rfl, scan_stage5_pass_flag _ _ _ rfl rfl,
        scan_stage6_flag _ _ _ rfl]
  · rw [tree_sitter_wxml_external_scanner_scan,
        dropWhile_iswspace_id ('/' :: rest) (by rw [lookaheadOf_cons]; decide),
        scan_stage1_pass onlySelfClosing ('/' :: rest) 0 (by rw [lookaheadOf_cons]; decide),
        scan_stage2_pass onlySelfClosing ('/' :: rest) 0 (by rw [lookaheadOf_cons]; decide),
        scan_stage3_pass_char onlySelfClosing ('/' :: rest) 0 (by rw [lookaheadOf_cons]; decide),
        scan_stage4_pass_flag _ _ _ rfl, scan_stage5_pass_flag _ _ _ rfl rfl,
        scan_stage6, if_pos ⟨rfl, rfl⟩]
    rw [show ('/' :: rest).tail = rest from rfl, if_neg h]

/-- Witness for the amended C9 at concrete second characters. -/
theorem c9_amended_partial_delimiter_witness :
    tree_sitter_wxml_external_scanner_scan onlyInterpStart ['\x7b', 'a'] = none ∧
    tree_sitter_wxml_external_scanner_scan onlyInterpEnd ['\x7d', 'a'] = none ∧
    tree_sitter_wxml_external_scanner_scan onlySelfClosing ['/', 'a'] = none :=
  ⟨c9_amended_partial_delimiter.1 ['a'] (by decide),
   c9_amended_partial_delimiter.2.1 ['a'] (by decide),
   c9_amended_partial_delimiter.2.2 ['a'] (by decide)⟩

/-! ### Comment recognition (claims C6, C7) -/

/-- Dropping the head of a `-->`-free list keeps it `-->`-free. -/
lemma hasDDG_tail (c : Char) (t : List Char) (h : hasDDG (c :: t) = false) :
    hasDDG t = false := by
  simp only [hasDDG, Bool.or_eq_false_iff] at h
  exact h.2

/-- A suffix of a `-->`-free list is `-->`-free. -/
lemma hasDDG_append_right (a b : List Char) (h : hasDDG (a ++ b) = false) :
    hasDDG b = false := by
  induction a with
  | nil => simpa using h
  | cons x a ih => exact ih (hasDDG_tail _ _ h)

/-- At least two leading dashes followed by `>` contain the substring
`-->`. -/
lemma ddg_replicate_gt (d : Nat) (cs : List Char) (h : 2 ≤ d) :
    hasDDG (List.replicate d '-' ++ ('>' :: cs)) = true := by
  induction d with
  | zero => omega
  | succ d ih =>
    by_cases hd2 : 2 ≤ d
    · rw [List.replicate_succ, List.cons_append, hasDDG, ih hd2]
      simp
    · have hd1 : d = 1 := by omega
      subst hd1
      show hasDDG ('-' :: '-' :: '>' :: cs) = true
      rw [hasDDG]
      simp [startsWithDDG, lookaheadOf_cons]

/-- Replaying a dash into the dash-counter: the list of counted dashes plus
a leading dash of the remaining input regroup. -/
lemma replicate_dash_shift (d : Nat) (S : List Char) :
    List.replicate d '-' ++ ('-' :: S) = List.replicate (d + 1) '-' ++ S := by
  rw [List.replicate_succ', List.append_assoc, List.singleton_append]

/-- The closing-delimiter loop run on `S ++ -->` with `d` dashes already
counted, where the counted dashes plus `S` contain no `-->` and `S`
contains no NUL, finds the final delimiter and consumes exactly
`S.length + 3` characters. -/
lemma comment_loop_success : ∀ (S : List Char) (d : Nat),
    hasDDG (List.replicate d '-' ++ S) = false → NUL ∉ S →
    comment_loop (S ++ ['-', '-', '>']) d = (true, S.length + 3) := by
  intro S
  induction S with
  | nil =>
    intro d _ _
    have h2 : 2 ≤ d + 2 := by omega
    show comment_loop ('-' :: '-' :: '>' :: []) d = (true, 3)
    simp [comment_loop, NUL, h2]
  | cons a S ih =>
    intro d hddg hnul
    have hnul2 : NUL ∉ S := fun hx => hnul (List.mem_cons_of_mem a hx)
    have hna : ¬(a = NUL) := fun hx => hnul (hx ▸ List.mem_cons_self a S)
    by_cases hdash : a = '-'
    · subst hdash
      rw [replicate_dash_shift] at hddg
      have hr := ih (d + 1) hddg hnul2
      rw [List.cons_append, comment_loop, if_neg hna, if_pos rfl, hr]
      simp [Nat.add_assoc, Nat.add_comm, Nat.add_left_comm]
    · have hcond : ¬(a = '>' ∧ d ≥ 2) := by
        rintro ⟨rfl, hd2⟩
        rw [ddg_replicate_gt d S hd2] at hddg
        exact absurd hddg (by decide)
      have hdd0 : hasDDG S = false :=
        hasDDG_tail _ _ (hasDDG_append_right (List.replicate d '-') _ hddg)
      have hr := ih 0 (by simpa using hdd0) hnul2
      rw [List.cons_append, comment_loop, if_neg hna, if_neg hdash, if_neg hcond, hr]
      simp [Nat.add_assoc, Nat.add_comm, Nat.add_left_comm]

/-- The closing-delimiter loop on an input that (together with the counted
dashes) contains no `-->` fails, consuming characters up to end of input or
a NUL. -/
lemma comment_loop_fail : ∀ (S : List Char) (d : Nat),
    hasDDG (List.replicate d '-' ++ S) = false →
    ∃ n, comment_loop S d = (false, n) ∧ lookaheadOf (S.drop n) = NUL := by
  intro S
  induction S with
  | nil => exact fun d _ => ⟨0, rfl, rfl⟩
  | cons a S ih =>
    intro d hddg
    by_cases hna : a = NUL
    · subst hna
      exact ⟨0, by rw [comment_loop, if_pos rfl], rfl⟩
    · by_cases hdash : a = '-'
      · subst hdash
        rw [replicate_dash_shift] at hddg
        obtain ⟨n, h1, h2⟩ := ih (d + 1) hddg
        refine ⟨n + 1, ?_, ?_⟩
        · rw [comment_loop, if_neg hna, if_pos rfl, h1]
        · simpa [List.drop_succ_cons] using h2
      · have hcond : ¬(a = '>' ∧ d ≥ 2) := by
          rintro ⟨rfl, hd2⟩
          rw [ddg_replicate_gt d S hd2] at hddg
          exact absurd hddg (by decide)
        have hdd0 : hasDDG S = false :=
          hasDDG_tail _ _ (hasDDG_append_right (List.replicate d '-') _ hddg)
        obtain ⟨n, h1, h2⟩ := ih 0 (by simpa using hdd0)
        refine ⟨n + 1, ?_, ?_⟩
        · rw [comment_loop, if_neg hna, if_neg hdash, if_neg hcond, h1]
        · simpa [List.drop_succ_cons] using h2

/-- On an input starting with the exact prefix `<!--`, `scan_comment`
consumes the prefix and delegates to the closing-delimiter loop. -/
lemma scan_comment_opening (rest : List Char) :
    scan_comment ('<' :: '!' :: '-' :: '-' :: rest) =
      ((comment_loop rest 0).1, (comment_loop rest 0).2 + 4) := rfl

/-- Raw text never reports content when the scan starts at end of input or
at a NUL. -/
lemma scan_raw_text_nul (r : List Char) (h : lookaheadOf r = NUL) :
    (scan_raw_text r).1 = false := by
  cases r with
  | nil => rfl
  | cons c t =>
    have hc : c = NUL := h
    simp [scan_raw_text, raw_loop, hc]

/-- The tag-name recognizer rejects immediately at end of input or at a
NUL, consuming nothing. -/
lemma scan_tag_name_nul (r : List Char) (h : lookaheadOf r = NUL) :
    scan_tag_name r 64 = (false, 0) := by
  rw [scan_tag_name, h]
  rfl

/-- The final stage yields no match at end of input or at a NUL. -/
lemma scan_stage6_nul (v : ValidSymbols) (r : List Char) (p : Nat)
    (h : lookaheadOf r = NUL) : scan_stage6 v r p = none := by
  rw [scan_stage6, if_neg]
  rintro ⟨-, hx⟩
  rw [h] at hx
  exact absurd hx (by decide)

/-- The tag-name stage onward yields no match at end of input or at a NUL. -/
lemma scan_stage5_nul (v : ValidSymbols) (r : List Char) (p : Nat)
    (h : lookaheadOf r = NUL) : scan_stage5 v r p = none := by
  by_cases hC : v.start_tag_name = true ∨ v.end_tag_name = true
  · rw [scan_stage5, if_pos hC, scan_tag_name_nul r h]
    simp only [Bool.false_eq_true, if_false, List.drop_zero, Nat.add_zero]
    exact scan_stage6_nul v r p h
  · rw [scan_stage5, if_neg hC]
    exact scan_stage6_nul v r p h

/-- The raw-text stage onward yields no match at end of input or at a NUL. -/
lemma scan_stage4_nul (v : ValidSymbols) (r : List Char) (p : Nat)
    (h : lookaheadOf r = NUL) : scan_stage4 v r p = none := by
  by_cases hC : v.raw_text = true
  · rw [scan_stage4, if_pos hC]
    rw [scan_raw_text_nul r h]
    simp
  · rw [scan_stage4, if_neg hC]
    exact scan_stage5_nul v r p h

/-- C6: for any string S free of `-->` (and of the NUL sentinel), the input
`<!--` ++ S ++ `-->` scans, with comment admissible, as one comment token
spanning the whole sequence and consuming exactly its characters. -/
theorem c6_comment_round_trip (v : ValidSymbols) (S : List Char)
    (hc : v.comment = true) (hd : hasDDG S = false) (hnul : NUL ∉ S) :
    tree_sitter_wxml_external_scanner_scan v
        ('<' :: '!' :: '-' :: '-' :: (S ++ ['-', '-', '>'])) =
      some (TokenType.COMMENT, S.length + 7) := by
  rw [tree_sitter_wxml_external_scanner_scan,
      dropWhile_iswspace_id _ (by rw [lookaheadOf_cons]; decide),
      scan_stage1_pass _ _ _ (by rw [lookaheadOf_cons]; decide),
      scan_stage2_pass _ _ _ (by rw [lookaheadOf_cons]; decide),
      scan_stage3, if_pos ⟨hc, rfl⟩,
      scan_comment_opening,
      comment_loop_success S 0 (by simpa using hd) hnul]
  simp [Nat.add_assoc]

/-- Witness for C6 at the body `hi` with only comment admissible. -/
theorem c6_comment_round_trip_witness :
    tree_sitter_wxml_external_scanner_scan onlyComment
        ('<' :: '!' :: '-' :: '-' :: (['h', 'i'] ++ ['-', '-', '>'])) =
      some (TokenType.COMMENT, ['h', 'i'].length + 7) :=
  c6_comment_round_trip onlyComment ['h', 'i'] rfl (by decide) (by decide)

/-- C7: an input beginning with `<!--` whose remainder contains no `-->`
yields, with comment admissible and any other flags, a whole-scan no-match
— never a partial comment token. -/
theorem c7_unterminated_comment (v : ValidSymbols) (rest : List Char)
    (hc : v.comment = true) (hd : hasDDG rest = false) :
    tree_sitter_wxml_external_scanner_scan v ('<' :: '!' :: '-' :: '-' :: rest) = none := by
  obtain ⟨n, hloop, hnul⟩ := comment_loop_fail rest 0 (by simpa using hd)
  rw [tree_sitter_wxml_external_scanner_scan,
      dropWhile_iswspace_id _ (by rw [lookaheadOf_cons]; decide),
      scan_stage1_pass _ _ _ (by rw [lookaheadOf_cons]; decide),
      scan_stage2_pass _ _ _ (by rw [lookaheadOf_cons]; decide),
      scan_stage3, if_pos ⟨hc, rfl⟩,
      scan_comment_opening, hloop]
  simp only [Bool.false_eq_true, if_false]
  have hdrop : ('<' :: '!' :: '-' :: '-' :: rest).drop (n + 4) = rest.drop n := by
    rw [show n + 4 = n + 1 + 1 + 1 + 1 from rfl]
    simp [List.drop_succ_cons]
  rw [hdrop]
  exact scan_stage4_nul v _ _ hnul

/-- Witness for C7 at remainder `x` with only comment admissible. -/
theorem c7_unterminated_comment_witness :
    tree_sitter_wxml_external_scanner_scan onlyComment
        ('<' :: '!' :: '-' :: '-' :: ['x']) = none :=
  c7_unterminated_comment onlyComment ['x'] rfl (by decide)

/-! ### Raw-text recognition (claims C3, C4, C5) -/

/-- Once content has been seen, the raw-text loop always reports content:
the `has_content` accumulator is monotone. -/
lemma raw_loop_true : ∀ (fuel : Nat) (l : List Char), l.length < fuel →
    (raw_loop fuel l true).1 = true := by
  intro fuel
  induction fuel with
  | zero => intro l h; omega
  | succ fuel ih =>
    intro l h
    match l with
    | [] => rfl
    | c :: cs =>
      have hlen : cs.length < fuel := by
        rw [List.length_cons] at h
        omega
      have ht1 : cs.tail.length < fuel := by
        rw [List.length_tail]; omega
      have ht2 : cs.tail.tail.length < fuel := by
        rw [List.length_tail, List.length_tail]; omega
      have ht3 : cs.tail.tail.tail.length < fuel := by
        rw [List.length_tail, List.length_tail, List.length_tail]; omega
      have ht4 : cs.tail.tail.tail.tail.length < fuel := by
        rw [List.length_tail, List.length_tail, List.length_tail, List.length_tail]; omega
      simp only [raw_loop]
      split_ifs
      · rfl
      · rfl
      · exact ih _ ht4
      · exact ih _ ht3
      · exact ih _ ht2
      · exact ih _ ht1
      · exact ih _ hlen
      · exact ih _ hlen

/-- On input free of NUL and of `<`, the raw-text loop consumes everything,
never marks a provisional end, and reports content iff it saw any character. -/
lemma raw_loop_clean : ∀ (fuel : Nat) (l : List Char) (has : Bool), l.length < fuel →
    NUL ∉ l → '<' ∉ l →
    raw_loop fuel l has = (has || decide (l ≠ []), l.length, none) := by
  intro fuel
  induction fuel with
  | zero => intro l has h; omega
  | succ fuel ih =>
    intro l has h hnul hlt
    match l with
    | [] => simp [raw_loop]
    | c :: cs =>
      have hlen : cs.length < fuel := by
        rw [List.length_cons] at h
        omega
      have hc : ¬(c = NUL) := fun hx => hnul (hx ▸ List.mem_cons_self c cs)
      have hc2 : ¬(c = '<') := fun hx => hlt (hx ▸ List.mem_cons_self c cs)
      have hnul2 : NUL ∉ cs := fun hx => hnul (List.mem_cons_of_mem c hx)
      have hlt2 : '<' ∉ cs := fun hx => hlt (List.mem_cons_of_mem c hx)
      simp only [raw_loop, if_neg hc, if_neg hc2,
                 ih cs true hlen hnul2 hlt2]
      simp

/-- Counterexample to C3 as stated: on `a<b` — raw text admissible, no
closing sequence present — the scan consumes all three characters but the
provisional boundary marked at the `<` becomes the token end, so the
reported span is `a` (length 1), not the whole input (length 3): the span
does not end at end-of-input. -/
theorem c3_counterexample :
    hasClosing ['a', '<', 'b'] = false ∧
    scan_raw_text ['a', '<', 'b'] = (true, 3, some 1) ∧
    tree_sitter_wxml_external_scanner_scan rawOnly ['a', '<', 'b'] =
      some (TokenType.RAW_TEXT, 1) ∧
    ['a', '<', 'b'].length = 3 := by
  decide

/-- C3 amended: whenever raw text is admissible and the remaining input
contains no `<` at all (hence no closing sequence) and no NUL, the raw-text
scan consumes every remaining character, the reported span ends at
end-of-input, and the scan succeeds iff at least one content character was
seen (no-match exactly on empty remaining input).  (When a `<` is present
but no closing sequence, everything is still consumed and success still
means non-empty input, but the span ends at the last provisional `<`
boundary instead of end-of-input.) -/
theorem c3_amended_eof_raw_text :
    (∀ rest : List Char, NUL ∉ rest → '<' ∉ rest →
      scan_raw_text rest = (decide (rest ≠ []), rest.length, none)) ∧
    (∀ (v : ValidSymbols) (rest : List Char), v.raw_text = true →
      v.interpolation_start = false → v.interpolation_end = false → v.comment = false →
      NUL ∉ rest → '<' ∉ rest → iswspace (lookaheadOf rest) = false →
      tree_sitter_wxml_external_scanner_scan v rest =
        if rest.isEmpty then none else some (TokenType.RAW_TEXT, rest.length)) := by
  have part1 : ∀ rest : List Char, NUL ∉ rest → '<' ∉ rest →
      scan_raw_text rest = (decide (rest ≠ []), rest.length, none) := by
    intro rest hnul hlt
    rw [scan_raw_text, raw_loop_clean (rest.length + 1) rest false (by omega) hnul hlt]
    simp
  refine ⟨part1, fun v rest hraw h1 h2 h3 hnul hlt hws => ?_⟩
  rw [tree_sitter_wxml_external_scanner_scan,
      dropWhile_iswspace_id rest hws,
      scan_stage1_pass_flag _ _ _ h1,
      scan_stage2_pass_flag _ _ _ h2,
      scan_stage3_pass_flag _ _ _ h3,
      scan_stage4, if_pos hraw]
  cases rest with
  | nil => simp [part1 [] hnul hlt]
  | cons c cs =>
    have hr := part1 (c :: cs) hnul hlt
    rw [hr]
    simp

/-- Witness for the amended C3 at the input `ab` with only raw text
admissible. -/
theorem c3_amended_eof_raw_text_witness :
    scan_raw_text ['a', 'b'] = (decide (['a', 'b'] ≠ []), ['a', 'b'].length, none) ∧
    tree_sitter_wxml_external_scanner_scan rawOnly ['a', 'b'] =
      (if (['a', 'b'] : List Char).isEmpty then none
       else some (TokenType.RAW_TEXT, ['a', 'b'].length)) :=
  ⟨c3_amended_eof_raw_text.1 ['a', 'b'] (by decide) (by decide),
   c3_amended_eof_raw_text.2 rawOnly ['a', 'b'] rfl rfl rfl rfl
     (by decide) (by decide) (by decide)⟩

/-- C4: inside a raw-text scan, a `<` that does not begin a case-insensitive
`</wxs>` closing sequence is treated as ordinary content — the scan
continues past it and reports content seen; concretely, `a < b </wxs>`
scans as raw text with span exactly `a < b ` (length 6, ending right
before the closing tag), the cursor having consumed 11 characters. -/
theorem c4_lt_is_content :
    (∀ (fuel : Nat) (cs : List Char) (has : Bool), ('<' :: cs).length < fuel →
      startsWithClosing ('<' :: cs) = false →
      (raw_loop fuel ('<' :: cs) has).1 = true) ∧
    tree_sitter_wxml_external_scanner_scan rawOnly ("a < b </wxs>".toList) =
      some (TokenType.RAW_TEXT, 6) ∧
    scan_raw_text ("a < b </wxs>".toList) = (true, 11, some 6) := by
  refine ⟨?_, by decide, by decide⟩
  intro fuel cs has h hsc
  cases fuel with
  | zero => omega
  | succ fuel =>
    have hlen : cs.length < fuel := by
      rw [List.length_cons] at h
      omega
    have ht1 : cs.tail.length < fuel := by
      rw [List.length_tail]; omega
    have ht2 : cs.tail.tail.length < fuel := by
      rw [List.length_tail, List.length_tail]; omega
    have ht3 : cs.tail.tail.tail.length < fuel := by
      rw [List.length_tail, List.length_tail, List.length_tail]; omega
    have ht4 : cs.tail.tail.tail.tail.length < fuel := by
      rw [List.length_tail, List.length_tail, List.length_tail, List.length_tail]; omega
    simp only [raw_loop, if_true, if_false]
    by_cases hA : lookaheadOf cs = '/'
    · by_cases hB : towupper (lookaheadOf cs.tail) = 'W'
      · by_cases hC : towupper (lookaheadOf cs.tail.tail) = 'X'
        · by_cases hD : towupper (lookaheadOf cs.tail.tail.tail) = 'S'
          · by_cases hE : lookaheadOf cs.tail.tail.tail.tail = '>'
            · exact absurd hsc
                (by simp [startsWithClosing, lookaheadOf_cons, hA, hB, hC, hD, hE])
            · rw [if_pos hA, if_pos hB, if_pos hC, if_pos hD, if_neg hE]
              exact raw_loop_true fuel _ ht4
          · rw [if_pos hA, if_pos hB, if_pos hC, if_neg hD]
            exact raw_loop_true fuel _ ht3
        · rw [if_pos hA, if_pos hB, if_neg hC]
          exact raw_loop_true fuel _ ht2
      · rw [if_pos hA, if_neg hB]
        exact raw_loop_true fuel _ ht1
    · rw [if_neg hA]
      exact raw_loop_true fuel _ hlen

/-- Witness for C4 at the single character `a` after the `<`. -/
theorem c4_lt_is_content_witness :
    (raw_loop 3 ('<' :: ['a']) false).1 = true :=
  c4_lt_is_content.1 3 ['a'] false (by decide) (by decide)

/-- C5: when the input begins immediately with a case-insensitive `</wxs>`
closing sequence, the raw-text recognizer reports no-match (no empty
raw-text token), and so does the whole scan when raw text is admissible
(and the comment flag, whose recognizer would otherwise consume the
leading `<` first, is not). -/
theorem c5_empty_raw_text (cs : List Char) (h : startsWithClosing cs = true) :
    (scan_raw_text cs).1 = false ∧
    (∀ v : ValidSymbols, v.raw_text = true → v.comment = false →
      tree_sitter_wxml_external_scanner_scan v cs = none) := by
  cases cs with
  | nil => exact absurd h (by decide)
  | cons c t =>
    simp only [startsWithClosing, lookaheadOf_cons, Bool.and_eq_true,
               decide_eq_true_eq] at h
    obtain ⟨⟨⟨⟨⟨hc, h1⟩, h2⟩, h3⟩, h4⟩, h5⟩ := h
    subst hc
    have hone : (scan_raw_text ('<' :: t)).1 = false := by
      simp only [scan_raw_text, raw_loop, List.length_cons, if_true, if_false]
      rw [show ('<' :: t).tail = t from rfl] at h1 h2 h3 h4 h5
      rw [if_pos h1, if_pos h2, if_pos h3, if_pos h4, if_pos h5,
          if_neg (show ¬('<' : Char) = NUL from by decide)]
    refine ⟨hone, fun v hraw hcom => ?_⟩
    rw [tree_sitter_wxml_external_scanner_scan,
        dropWhile_iswspace_id ('<' :: t) (by rw [lookaheadOf_cons]; decide),
        scan_stage1_pass _ _ _ (by rw [lookaheadOf_cons]; decide),
        scan_stage2_pass _ _ _ (by rw [lookaheadOf_cons]; decide),
        scan_stage3_pass_flag _ _ _ hcom,
        scan_stage4, if_pos hraw, hone]
    simp

/-- Witness for C5 at the input `</wxs>` with only raw text admissible. -/
theorem c5_empty_raw_text_witness :
    (scan_raw_text ("</wxs>".toList)).1 = false ∧
    tree_sitter_wxml_external_scanner_scan rawOnly ("</wxs>".toList) = none :=
  ⟨(c5_empty_raw_text ("</wxs>".toList) (by decide)).1,
   (c5_empty_raw_text ("</wxs>".toList) (by decide)).2 rawOnly rfl rfl⟩
